import Mathlib

/-!
Verification development for the task-management backend (Node/TypeScript,
Express + Mongoose). We give a shallow embedding of the data model and of the
domain-service operations (the authorization and resource-access rule engine
of the spec), translated from:

  - src/database/entities/User.entity.ts, Project.entity.ts, Task.entity.ts
  - src/repositories/base.repository.ts, project.repository.ts,
    task.repository.ts, user.repository.ts
  - src/services/project.service.ts, task.service.ts, user.service.ts
  - src/middleware/auth.ts

Mongo ObjectIds are modelled as `Nat`; `Date` values as `Nat` timestamps
passed explicitly (`now`). Databases are association lists of documents, and
each service method is a pure function from a database and its arguments to a
`ServiceResponse`-shaped result together with the post-state database.
External collaborators excluded by the spec (bcrypt, JWT signing) are
modelled abstractly; such definitions carry a `Modelled from the spec:` note.
-/

namespace TaskMgmt

/-- User roles (src/types/user.types.ts: `role ∈ {admin, user}`). -/
inductive Role where
  | admin
  | user
deriving DecidableEq

/-- Project status enum (src/types/project.types.ts). -/
inductive ProjectStatus where
  | active
  | completed
  | paused
deriving DecidableEq

/-- Task status enum (src/types/task.types.ts). -/
inductive TaskStatus where
  | todo
  | inProgress
  | completed
deriving DecidableEq

/-- Task priority enum (src/types/task.types.ts). -/
inductive TaskPriority where
  | low
  | medium
  | high
deriving DecidableEq

/-- A stored User document (src/database/entities/User.entity.ts).
The `password` field stores whatever string the persistence layer was given
(the pre-save hook hashes it first, see `bcryptHash` and `register`). -/
structure UserDoc where
  id : Nat
  name : String
  email : String
  password : String
  role : Role
  isActive : Bool
  lastLogin : Option Nat
deriving DecidableEq

/-- A stored Project document (src/database/entities/Project.entity.ts). -/
structure ProjectDoc where
  id : Nat
  name : String
  description : String
  owner : Nat
  members : List Nat
  status : ProjectStatus
deriving DecidableEq

/-- A stored Task document (src/database/entities/Task.entity.ts). -/
structure TaskDoc where
  id : Nat
  title : String
  description : String
  projectId : Nat
  assignedTo : Nat
  status : TaskStatus
  priority : TaskPriority
  dueDate : Nat
  completedAt : Option Nat
deriving DecidableEq

/-- The persistent state: the three MongoDB collections. -/
structure DB where
  users : List UserDoc
  projects : List ProjectDoc
  tasks : List TaskDoc
deriving DecidableEq

/-- Shape of every domain-service return value
(src/types/common.types.ts `ServiceResponse`): either success with data or a
failure with a stable string code and a message. -/
inductive SvcResult (α : Type) where
  | ok (data : α)
  | err (code : String) (message : String)
deriving DecidableEq

/-- Whether a service result is a success. -/
def SvcResult.isOk {α : Type} : SvcResult α → Bool
  | .ok _ => true
  | .err _ _ => false

/-- The error code of a service result, if any. -/
def SvcResult.code {α : Type} : SvcResult α → Option String
  | .ok _ => none
  | .err c _ => some c

/-- BaseRepository.findById on the users collection. -/
def DB.findUser (db : DB) (uid : Nat) : Option UserDoc :=
  db.users.find? (fun u => u.id == uid)

/-- BaseRepository.findById on the projects collection. -/
def DB.findProject (db : DB) (pid : Nat) : Option ProjectDoc :=
  db.projects.find? (fun p => p.id == pid)

/-- BaseRepository.findById on the tasks collection. -/
def DB.findTask (db : DB) (tid : Nat) : Option TaskDoc :=
  db.tasks.find? (fun t => t.id == tid)

/-- projectSchema.methods.isOwner (Project.entity.ts):
`this.owner.equals(userId)`. -/
def ProjectDoc.isOwner (p : ProjectDoc) (userId : Nat) : Bool :=
  p.owner == userId

/-- projectSchema.methods.isMember (Project.entity.ts):
`this.members.some(m => m.equals(userId))`. -/
def ProjectDoc.isMember (p : ProjectDoc) (userId : Nat) : Bool :=
  p.members.contains userId

/-- ProjectRepository.userHasAccess (project.repository.ts): looks the
project up and returns `isOwner || isMember`; `false` if it does not exist. -/
def userHasAccess (db : DB) (projectId userId : Nat) : Bool :=
  match db.findProject projectId with
  | none => false
  | some p => p.isOwner userId || p.isMember userId

/-- Pick a Mongo-fresh id for an insert into the projects collection. -/
def freshProjectId (db : DB) : Nat :=
  db.projects.foldr (fun p m => max (p.id + 1) m) 0

/-- Pick a Mongo-fresh id for an insert into the tasks collection. -/
def freshTaskId (db : DB) : Nat :=
  db.tasks.foldr (fun t m => max (t.id + 1) m) 0

/-- Pick a Mongo-fresh id for an insert into the users collection. -/
def freshUserId (db : DB) : Nat :=
  db.users.foldr (fun u m => max (u.id + 1) m) 0

/-- Update in place the single project document with the given id
(a Mongo single-document field-level update). -/
def DB.mapProject (db : DB) (pid : Nat) (f : ProjectDoc → ProjectDoc) : DB :=
  { db with projects := db.projects.map (fun p => if p.id == pid then f p else p) }

/-- ProjectRepository.addMember (project.repository.ts):
`findByIdAndUpdate(projectId, {$addToSet: {members: userId}})`. -/
def repoAddMember (db : DB) (projectId userId : Nat) : DB :=
  db.mapProject projectId (fun p =>
    if p.members.contains userId then p else { p with members := p.members ++ [userId] })

/-- ProjectRepository.removeMember (project.repository.ts):
`findByIdAndUpdate(projectId, {$pull: {members: userId}})`. -/
def repoRemoveMember (db : DB) (projectId userId : Nat) : DB :=
  db.mapProject projectId (fun p =>
    { p with members := p.members.filter (fun m => m != userId) })

/-- Request body for project creation (CreateProjectSchema,
src/types/project.types.ts): name, description, optional member id list
(an omitted list is the empty list). -/
structure CreateProjectData where
  name : String
  description : String
  members : List Nat
deriving DecidableEq

/-- The document that project creation inserts: owner := the creator,
members := exactly the proposed id list, status defaulting to active
(Project.entity.ts schema defaults). -/
def createdProject (db : DB) (d : CreateProjectData) (ownerId : Nat) : ProjectDoc :=
  { id := freshProjectId db, name := d.name, description := d.description,
    owner := ownerId, members := d.members, status := .active }

/-- ProjectService.createProject (project.service.ts): when a non-empty
member list is proposed, all the ids must resolve to active users in one
batch query (`INVALID_MEMBERS` otherwise); then the project is created with
owner := the creator and members := exactly the proposed list. -/
def createProject (db : DB) (d : CreateProjectData) (ownerId : Nat) :
    SvcResult (Option ProjectDoc) × DB :=
  if 0 < d.members.length ∧
      (db.users.filter (fun u => d.members.contains u.id && u.isActive)).length
        ≠ d.members.length then
    (.err "INVALID_MEMBERS" "One or more members are invalid or inactive", db)
  else
    let p : ProjectDoc := createdProject db d ownerId
    let db2 : DB := { db with projects := db.projects ++ [p] }
    (.ok (db2.findProject p.id), db2)

/-- ProjectService.getProjectById (project.service.ts): not-found check,
then (when a userId is supplied) the owner-or-member access check with
`PROJECT_ACCESS_DENIED`. -/
def getProjectById (db : DB) (projectId : Nat) (userId : Option Nat) :
    SvcResult ProjectDoc :=
  match db.findProject projectId with
  | none => .err "PROJECT_NOT_FOUND" "Project not found"
  | some p =>
    match userId with
    | some uid =>
      if !p.isOwner uid && !p.isMember uid then
        .err "PROJECT_ACCESS_DENIED" "Access denied to this project"
      else .ok p
    | none => .ok p

/-- Request body for project update (UpdateProjectSchema,
src/types/project.types.ts): optional name, description, status; the
schema is strict, so owner and members cannot appear here. -/
structure UpdateProjectData where
  name : Option String
  description : Option String
  status : Option ProjectStatus
deriving DecidableEq

/-- Apply an UpdateProject body to a project document (Mongo `$set`). -/
def applyProjectUpdate (p : ProjectDoc) (d : UpdateProjectData) : ProjectDoc :=
  { p with
    name := d.name.getD p.name,
    description := d.description.getD p.description,
    status := d.status.getD p.status }

/-- ProjectService.updateProject (project.service.ts): not-found check, then
owner-only check (`INSUFFICIENT_PERMISSIONS`), then the repository update and
a populated re-fetch. -/
def updateProject (db : DB) (projectId : Nat) (d : UpdateProjectData) (userId : Nat) :
    SvcResult (Option ProjectDoc) × DB :=
  match db.findProject projectId with
  | none => (.err "PROJECT_NOT_FOUND" "Project not found", db)
  | some p =>
    if !p.isOwner userId then
      (.err "INSUFFICIENT_PERMISSIONS" "Only project owner can update the project", db)
    else
      let db2 := db.mapProject projectId (fun q => applyProjectUpdate q d)
      (.ok (db2.findProject projectId), db2)

/-- ProjectService.deleteProject (project.service.ts): not-found check, then
owner-only check (`INSUFFICIENT_PERMISSIONS`), then the delete. -/
def deleteProject (db : DB) (projectId userId : Nat) :
    SvcResult String × DB :=
  match db.findProject projectId with
  | none => (.err "PROJECT_NOT_FOUND" "Project not found", db)
  | some p =>
    if !p.isOwner userId then
      (.err "INSUFFICIENT_PERMISSIONS" "Only project owner can delete the project", db)
    else
      (.ok "Project deleted successfully",
       { db with projects := db.projects.filter (fun q => q.id != projectId) })

/-- ProjectService.addMember (project.service.ts): not-found, owner-only
(`INSUFFICIENT_PERMISSIONS`), target exists and is active (`INVALID_USER`),
target not already member or owner (`ALREADY_MEMBER`), then `$addToSet`. -/
def addMember (db : DB) (projectId memberUserId requestUserId : Nat) :
    SvcResult (Option ProjectDoc) × DB :=
  match db.findProject projectId with
  | none => (.err "PROJECT_NOT_FOUND" "Project not found", db)
  | some p =>
    if !p.isOwner requestUserId then
      (.err "INSUFFICIENT_PERMISSIONS" "Only project owner can add members", db)
    else
      match db.findUser memberUserId with
      | none => (.err "INVALID_USER" "User not found or inactive", db)
      | some mu =>
        if !mu.isActive then
          (.err "INVALID_USER" "User not found or inactive", db)
        else if p.isMember memberUserId || p.isOwner memberUserId then
          (.err "ALREADY_MEMBER" "User is already a member of this project", db)
        else
          let db2 := repoAddMember db projectId memberUserId
          (.ok (db2.findProject projectId), db2)

/-- ProjectService.removeMember (project.service.ts), in source order:
not-found; then the permission check (owner, or self-removal) with
`INSUFFICIENT_PERMISSIONS`; then the owner-target check with
`CANNOT_REMOVE_OWNER`; then the actual-member check with `NOT_A_MEMBER`;
then `$pull`. -/
def removeMember (db : DB) (projectId memberUserId requestUserId : Nat) :
    SvcResult (Option ProjectDoc) × DB :=
  match db.findProject projectId with
  | none => (.err "PROJECT_NOT_FOUND" "Project not found", db)
  | some p =>
    if !p.isOwner requestUserId && requestUserId != memberUserId then
      (.err "INSUFFICIENT_PERMISSIONS"
        "Only project owner can remove members or members can remove themselves", db)
    else if p.isOwner memberUserId then
      (.err "CANNOT_REMOVE_OWNER" "Cannot remove project owner", db)
    else if !p.isMember memberUserId then
      (.err "NOT_A_MEMBER" "User is not a member of this project", db)
    else
      let db2 := repoRemoveMember db projectId memberUserId
      (.ok (db2.findProject projectId), db2)

/-- Request body for task creation (CreateTaskSchema,
src/types/task.types.ts): title, description, projectId, assignedTo,
priority, dueDate. Status is not part of the body; the entity default is
`todo` and completedAt is absent. -/
structure CreateTaskInput where
  title : String
  description : String
  projectId : Nat
  assignedTo : Nat
  priority : TaskPriority
  dueDate : Nat
deriving DecidableEq

/-- Request body for a single task update (UpdateTaskSchema,
src/types/task.types.ts): all fields optional, schema strict, so
`completedAt` can never appear in a request body. -/
structure UpdateTaskInput where
  title : Option String
  description : Option String
  assignedTo : Option Nat
  status : Option TaskStatus
  priority : Option TaskPriority
  dueDate : Option Nat
deriving DecidableEq

/-- The in-flight Mongo update document for a single task update: the request
fields plus the `completedAt` / `$unset completedAt` entries that only the
pre-findOneAndUpdate hook may add. -/
structure TaskUpdateDoc where
  title : Option String
  description : Option String
  assignedTo : Option Nat
  status : Option TaskStatus
  priority : Option TaskPriority
  dueDate : Option Nat
  completedAt : Option Nat
  unsetCompletedAt : Bool
deriving DecidableEq

/-- View a validated request body as an update document: no completedAt
entry and no `$unset` yet. -/
def UpdateTaskInput.toUpdateDoc (d : UpdateTaskInput) : TaskUpdateDoc :=
  { title := d.title, description := d.description, assignedTo := d.assignedTo,
    status := d.status, priority := d.priority, dueDate := d.dueDate,
    completedAt := none, unsetCompletedAt := false }

/-- taskSchema.pre of findOneAndUpdate (Task.entity.ts): if the update sets
status to completed and carries no completedAt, stamp `completedAt := now`;
else if it sets status to a non-completed value, `$unset completedAt` and
drop any completedAt entry; otherwise leave the update untouched. -/
def taskPreFindOneAndUpdate (u : TaskUpdateDoc) (now : Nat) : TaskUpdateDoc :=
  if u.status == some .completed && u.completedAt == none then
    { u with completedAt := some now }
  else
    match u.status with
    | some s =>
      if s != .completed then
        { u with unsetCompletedAt := true, completedAt := none }
      else u
    | none => u

/-- Apply an update document to a stored task (Mongo `$set` plus `$unset`). -/
def applyTaskUpdateDoc (t : TaskDoc) (u : TaskUpdateDoc) : TaskDoc :=
  { t with
    title := u.title.getD t.title,
    description := u.description.getD t.description,
    assignedTo := u.assignedTo.getD t.assignedTo,
    status := u.status.getD t.status,
    priority := u.priority.getD t.priority,
    dueDate := u.dueDate.getD t.dueDate,
    completedAt :=
      if u.unsetCompletedAt then none
      else match u.completedAt with
        | some c => some c
        | none => t.completedAt }

/-- taskSchema.pre of save (Task.entity.ts): when the status path was
modified, entering completed stamps `completedAt := now` (if unset) and any
non-completed status deletes completedAt. -/
def taskPreSave (t : TaskDoc) (statusModified : Bool) (now : Nat) : TaskDoc :=
  if statusModified then
    if t.status == .completed && t.completedAt == none then
      { t with completedAt := some now }
    else if t.status != .completed then
      { t with completedAt := none }
    else t
  else t

/-- BaseRepository.update for tasks: `findByIdAndUpdate`, which first runs
the pre-findOneAndUpdate hook on the update document. -/
def taskRepoUpdate (db : DB) (taskId : Nat) (u : TaskUpdateDoc) (now : Nat) : DB :=
  let u2 := taskPreFindOneAndUpdate u now
  { db with tasks := db.tasks.map (fun t => if t.id == taskId then applyTaskUpdateDoc t u2 else t) }

/-- The `updates` object of a bulk request (BulkUpdateTasksSchema,
src/types/task.types.ts): optional status, priority, assignedTo. -/
structure BulkTaskUpdates where
  status : Option TaskStatus
  priority : Option TaskPriority
  assignedTo : Option Nat
deriving DecidableEq

/-- A validated bulk-update request body. -/
structure BulkUpdateInput where
  taskIds : List Nat
  updates : BulkTaskUpdates
deriving DecidableEq

/-- Apply a bulk `updates` object to one task, exactly as `updateMany`
applies it: a plain `$set` of the given fields. -/
def applyBulkUpdates (t : TaskDoc) (u : BulkTaskUpdates) : TaskDoc :=
  { t with
    status := u.status.getD t.status,
    priority := u.priority.getD t.priority,
    assignedTo := u.assignedTo.getD t.assignedTo }

/-- TaskRepository.bulkUpdate (task.repository.ts):
`updateMany({_id: {$in: taskIds}}, updates)`. No middleware is registered for
`updateMany`, so the update document is applied as-is, without the
completedAt derivation that the save / findOneAndUpdate hooks perform. -/
def taskRepoBulkUpdate (db : DB) (taskIds : List Nat) (u : BulkTaskUpdates) : DB :=
  { db with tasks := db.tasks.map (fun t => if taskIds.contains t.id then applyBulkUpdates t u else t) }

/-- TaskService.createTask (task.service.ts), in source order: the acting
user must have project access (`PROJECT_ACCESS_DENIED`); the assignee must
exist and be active (`INVALID_ASSIGNED_USER`); the assignee must have project
access (`ASSIGNED_USER_NO_ACCESS`); then the document is created (entity
defaults: status todo, no completedAt) and saved, running the pre-save
hook. -/
def createTask (db : DB) (d : CreateTaskInput) (userId now : Nat) :
    SvcResult (Option TaskDoc) × DB :=
  if !userHasAccess db d.projectId userId then
    (.err "PROJECT_ACCESS_DENIED" "Access denied to this project", db)
  else
    match db.findUser d.assignedTo with
    | none => (.err "INVALID_ASSIGNED_USER" "Assigned user not found or inactive", db)
    | some au =>
      if !au.isActive then
        (.err "INVALID_ASSIGNED_USER" "Assigned user not found or inactive", db)
      else if !userHasAccess db d.projectId d.assignedTo then
        (.err "ASSIGNED_USER_NO_ACCESS" "Assigned user does not have access to this project", db)
      else
        let t0 : TaskDoc :=
          { id := freshTaskId db, title := d.title, description := d.description,
            projectId := d.projectId, assignedTo := d.assignedTo,
            status := .todo, priority := d.priority, dueDate := d.dueDate,
            completedAt := none }
        let t := taskPreSave t0 true now
        let db2 : DB := { db with tasks := db.tasks ++ [t] }
        (.ok (db2.findTask t.id), db2)

/-- TaskService.getTaskById (task.service.ts): not-found check, then the
parent-project access check with `TASK_ACCESS_DENIED`. -/
def getTaskById (db : DB) (taskId userId : Nat) : SvcResult TaskDoc :=
  match db.findTask taskId with
  | none => .err "TASK_NOT_FOUND" "Task not found"
  | some t =>
    if !userHasAccess db t.projectId userId then
      .err "TASK_ACCESS_DENIED" "Access denied to this task"
    else .ok t

/-- TaskService.updateTask (task.service.ts), in source order: not-found;
acting user has access to the parent project (`TASK_ACCESS_DENIED`); when the
body reassigns the task, the new assignee must exist and be active
(`INVALID_ASSIGNED_USER`) and have project access (`ASSIGNED_USER_NO_ACCESS`);
then the repository update (through the findOneAndUpdate hook) and a
populated re-fetch. -/
def updateTask (db : DB) (taskId : Nat) (d : UpdateTaskInput) (userId now : Nat) :
    SvcResult (Option TaskDoc) × DB :=
  match db.findTask taskId with
  | none => (.err "TASK_NOT_FOUND" "Task not found", db)
  | some t =>
    if !userHasAccess db t.projectId userId then
      (.err "TASK_ACCESS_DENIED" "Access denied to this task", db)
    else
      match d.assignedTo with
      | some newAssignee =>
        match db.findUser newAssignee with
        | none => (.err "INVALID_ASSIGNED_USER" "Assigned user not found or inactive", db)
        | some au =>
          if !au.isActive then
            (.err "INVALID_ASSIGNED_USER" "Assigned user not found or inactive", db)
          else if !userHasAccess db t.projectId newAssignee then
            (.err "ASSIGNED_USER_NO_ACCESS" "Assigned user does not have access to this project", db)
          else
            let db2 := taskRepoUpdate db taskId d.toUpdateDoc now
            (.ok (db2.findTask taskId), db2)
      | none =>
        let db2 := taskRepoUpdate db taskId d.toUpdateDoc now
        (.ok (db2.findTask taskId), db2)

/-- TaskService.deleteTask (task.service.ts): not-found check, then the
parent-project access check with `TASK_ACCESS_DENIED`, then the delete. -/
def deleteTask (db : DB) (taskId userId : Nat) : SvcResult String × DB :=
  match db.findTask taskId with
  | none => (.err "TASK_NOT_FOUND" "Task not found", db)
  | some t =>
    if !userHasAccess db t.projectId userId then
      (.err "TASK_ACCESS_DENIED" "Access denied to this task", db)
    else
      (.ok "Task deleted successfully",
       { db with tasks := db.tasks.filter (fun q => q.id != taskId) })

/-- TaskService.bulkUpdateTasks (task.service.ts): fetch all referenced
tasks; if fewer documents match than ids were given, fail with
`TASKS_NOT_FOUND`; if the actor lacks access to any referenced task's
project, fail with `TASKS_ACCESS_DENIED`; only when every check passed,
perform the repository bulk update. First, the documents the service's
`findAll({_id: {$in: taskIds}})` pre-check fetches: -/
def bulkFound (db : DB) (d : BulkUpdateInput) : List TaskDoc :=
  db.tasks.filter (fun t => d.taskIds.contains t.id)

/-- The bulk-update service method itself (see the comment above). -/
def bulkUpdateTasks (db : DB) (d : BulkUpdateInput) (userId : Nat) :
    SvcResult Nat × DB :=
  let found := bulkFound db d
  if found.length != d.taskIds.length then
    (.err "TASKS_NOT_FOUND" "One or more tasks not found", db)
  else if found.any (fun t => !userHasAccess db t.projectId userId) then
    (.err "TASKS_ACCESS_DENIED" "Access denied to one or more tasks", db)
  else
    (.ok found.length, taskRepoBulkUpdate db d.taskIds d.updates)

/-- Modelled from the spec: password hashing is an excluded external
collaborator (`hash(password) → hash`, bcryptjs in the source). We model it
as an opaque tagging encoder; the development only relies on the fact that
the stored field is the image of the raw password under this function, never
the raw password itself. -/
def bcryptHash (pw : String) : String :=
  String.append "bcrypt-hash:" pw

/-- The identity/role claims carried by a token (JWTPayload,
src/types/user.types.ts). -/
structure TokenPayload where
  userId : Nat
  email : String
  role : Role
deriving DecidableEq

/-- Which signing secret a token was produced with. -/
inductive TokenKind where
  | access
  | refresh
deriving DecidableEq

/-- Modelled from the spec: JWT signing is a black-box capability
(`issueAccessToken(claims) → token`); a signed token is its kind plus its
claims. -/
structure SignedToken where
  kind : TokenKind
  payload : TokenPayload
deriving DecidableEq

/-- generateToken (middleware/auth.ts): sign the claims with the access
secret. -/
def generateToken (p : TokenPayload) : SignedToken :=
  { kind := .access, payload := p }

/-- generateRefreshToken (middleware/auth.ts): sign the claims with the
refresh secret. -/
def generateRefreshToken (p : TokenPayload) : SignedToken :=
  { kind := .refresh, payload := p }

/-- A user object with the password field stripped
(userSchema.methods.toSafeObject, User.entity.ts). -/
structure SafeUser where
  id : Nat
  name : String
  email : String
  role : Role
  isActive : Bool
  lastLogin : Option Nat
deriving DecidableEq

/-- userSchema.methods.toSafeObject (User.entity.ts): drop the password. -/
def UserDoc.toSafeObject (u : UserDoc) : SafeUser :=
  { id := u.id, name := u.name, email := u.email, role := u.role,
    isActive := u.isActive, lastLogin := u.lastLogin }

/-- The success payload of register and login (AuthResponse,
src/types/user.types.ts). -/
structure AuthResponse where
  user : SafeUser
  accessToken : SignedToken
  refreshToken : SignedToken
deriving DecidableEq

/-- Validated registration body (UserRegistrationSchema): name, email,
password (confirmPassword already checked by the schema). -/
structure RegistrationInput where
  name : String
  email : String
  password : String
deriving DecidableEq

/-- UserRepository.findByEmail (user.repository.ts): `findOne({email})`. -/
def DB.findUserByEmail (db : DB) (email : String) : Option UserDoc :=
  db.users.find? (fun u => u.email == email)

/-- The user document that registration inserts: the entity pre-save hook
has replaced the raw password with its hash; role defaults to user and
isActive to true (User.entity.ts schema defaults). -/
def registeredUser (db : DB) (d : RegistrationInput) : UserDoc :=
  { id := freshUserId db, name := d.name, email := d.email,
    password := bcryptHash d.password, role := .user,
    isActive := true, lastLogin := none }

/-- The claims registration signs into both tokens. -/
def registeredPayload (db : DB) (d : RegistrationInput) : TokenPayload :=
  { userId := (registeredUser db d).id, email := (registeredUser db d).email,
    role := (registeredUser db d).role }

/-- UserService.register (user.service.ts): duplicate-email check
(`USER_EXISTS`); on a fresh email the user is created — the entity pre-save
hook replaces the raw password with its hash, role defaults to user,
isActive to true — and an access plus refresh token pair is issued over the
new user's claims. -/
def register (db : DB) (d : RegistrationInput) : SvcResult AuthResponse × DB :=
  match db.findUserByEmail d.email with
  | some _ => (.err "USER_EXISTS" "User with this email already exists", db)
  | none =>
    let nu : UserDoc := registeredUser db d
    (.ok { user := nu.toSafeObject,
           accessToken := generateToken (registeredPayload db d),
           refreshToken := generateRefreshToken (registeredPayload db d) },
     { db with users := db.users ++ [nu] })

/-- User.updateLastLogin (User.entity.ts):
`findByIdAndUpdate(userId, {lastLogin: new Date()})`; the user
pre-findOneAndUpdate hook only rewrites a password entry, which this update
does not carry. -/
def userRepoUpdateLastLogin (db : DB) (userId now : Nat) : DB :=
  { db with users := db.users.map (fun u =>
      if u.id == userId then { u with lastLogin := some now } else u) }

/-- The authenticate middleware (middleware/auth.ts), after the black-box
token verification produced the claims: the subject user must still exist
and be active (`INVALID_USER`), and then — before the request handler even
runs — `User.updateLastLogin` stamps the user's lastLogin. This runs on
every authenticated route (`router.use(authenticate)`), read-only ones
included. -/
def authenticate (db : DB) (tokenUserId now : Nat) : SvcResult Unit × DB :=
  match db.findUser tokenUserId with
  | none => (.err "INVALID_USER" "User not found or inactive", db)
  | some u =>
    if !u.isActive then
      (.err "INVALID_USER" "User not found or inactive", db)
    else
      (.ok (), userRepoUpdateLastLogin db tokenUserId now)

/-- Outcome of an Express middleware: pass the request on, or answer it with
an HTTP status and error code. -/
inductive MwResult where
  | next
  | denied (status : Nat) (code : String)
deriving DecidableEq

/-- requireProjectMember (middleware/auth.ts): an admin passes immediately;
otherwise the project must exist (404 `PROJECT_NOT_FOUND`) and the user must
be its owner or a member (403 `PROJECT_ACCESS_DENIED` otherwise). -/
def requireProjectMember (db : DB) (projectId userId : Nat) (role : Role) : MwResult :=
  if role == .admin then .next
  else
    match db.findProject projectId with
    | none => .denied 404 "PROJECT_NOT_FOUND"
    | some p =>
      if !p.isOwner userId && !p.isMember userId then
        .denied 403 "PROJECT_ACCESS_DENIED"
      else .next

/-- Well-formedness of a database: Mongo `_id` values are unique within each
collection. -/
def DB.wf (db : DB) : Prop :=
  (db.users.map UserDoc.id).Nodup
    ∧ (db.projects.map ProjectDoc.id).Nodup
    ∧ (db.tasks.map TaskDoc.id).Nodup

/-- Concrete active user for the example databases below. -/
def mkUser (uid : Nat) (em : String) : UserDoc :=
  { id := uid, name := "user", email := em, password := "stored", role := .user,
    isActive := true, lastLogin := none }

/-- Concrete project for the example databases below. -/
def mkProject (pid ownerId : Nat) (ms : List Nat) : ProjectDoc :=
  { id := pid, name := "proj", description := "desc", owner := ownerId,
    members := ms, status := .active }

/-- Concrete task for the example databases below. -/
def mkTask (tid pid assignee : Nat) (st : TaskStatus) (ca : Option Nat) : TaskDoc :=
  { id := tid, title := "task", description := "desc", projectId := pid,
    assignedTo := assignee, status := st, priority := .medium,
    dueDate := 1000, completedAt := ca }

/-- Example database: owner 1, member 2, outsider 3, task 9 in project 5. -/
def exDb1 : DB :=
  { users := [mkUser 1 "o@x.com", mkUser 2 "m@x.com", mkUser 3 "s@x.com"],
    projects := [mkProject 5 1 [2]],
    tasks := [mkTask 9 5 2 .todo none] }

/-- Example database: single user 1 owning project 5 with a todo task 10. -/
def exDb2 : DB :=
  { users := [mkUser 1 "o@x.com"],
    projects := [mkProject 5 1 []],
    tasks := [mkTask 10 5 1 .todo none] }

/-- Example bulk request: mark task 10 as completed. -/
def exBulkComplete : BulkUpdateInput :=
  { taskIds := [10],
    updates := { status := some .completed, priority := none, assignedTo := none } }

/-- Example database: one active user and no projects yet. -/
def exDb3 : DB :=
  { users := [mkUser 1 "o@x.com"], projects := [], tasks := [] }

/-- Example creation request proposing the creator itself as a member. -/
def exSelfMemberCreate : CreateProjectData :=
  { name := "proj", description := "desc", members := [1] }

/-- Example database: owner 1 and outsider 3 both active, project 5 with
member 2, a task in it. -/
def exDb4 : DB :=
  { users := [mkUser 1 "o@x.com", mkUser 2 "m@x.com", mkUser 3 "s@x.com"],
    projects := [mkProject 5 1 [2]],
    tasks := [mkTask 9 5 1 .todo none] }

/-- Example task-creation request: project 5 assigned to user 3. -/
def exCreateTaskFor3 : CreateTaskInput :=
  { title := "task", description := "desc", projectId := 5, assignedTo := 3,
    priority := .medium, dueDate := 1000 }

/-- Example registration request reusing an already-registered email. -/
def exRegDup : RegistrationInput :=
  { name := "dup", email := "o@x.com", password := "Secret1!" }

/-- Example registration request with a fresh email. -/
def exRegFresh : RegistrationInput :=
  { name := "new", email := "n@x.com", password := "Secret1!" }

/-- Example bulk request naming an existing and a missing task id. -/
def exBulkMissing : BulkUpdateInput :=
  { taskIds := [9, 42],
    updates := { status := some .completed, priority := none, assignedTo := none } }

/-- Example single-task update request that sets the status to completed. -/
def exUpdStatusDone : UpdateTaskInput :=
  { title := none, description := none, assignedTo := none,
    status := some .completed, priority := none, dueDate := none }

/-! Helper lemmas shared by the claim theorems. -/

/-- Find commutes with a map that does not disturb the search predicate. -/
theorem find?_map_congr {α : Type} (p : α → Bool) (f : α → α) (l : List α)
    (hf : ∀ x, p (f x) = p x) :
    (l.map f).find? p = (l.find? p).map f := by
  induction l with
  | nil => rfl
  | cons x xs ih =>
    simp only [List.map_cons, List.find?]
    rw [hf x]
    cases h : p x
    · simpa using ih
    · rfl

/-- Membership form of `ProjectDoc.isMember`. -/
theorem isMember_iff (p : ProjectDoc) (uid : Nat) :
    p.isMember uid = true ↔ uid ∈ p.members := by
  simp [ProjectDoc.isMember, List.contains]

/-- Equality form of `ProjectDoc.isOwner`. -/
theorem isOwner_iff (p : ProjectDoc) (uid : Nat) :
    p.isOwner uid = true ↔ p.owner = uid := by
  simp [ProjectDoc.isOwner]

/-- With the project present, `userHasAccess` is the owner-or-member test. -/
theorem userHasAccess_eq (db : DB) (pid uid : Nat) (p : ProjectDoc)
    (hp : db.findProject pid = some p) :
    userHasAccess db pid uid = (p.isOwner uid || p.isMember uid) := by
  unfold userHasAccess
  rw [hp]

/-- C1. The project-access decision used for project reads and task
create/read/update/delete is exactly "requester is the owner or a member":
`userHasAccess` returns true iff `uid = p.owner ∨ uid ∈ p.members`, and when
it is false the project read fails with `PROJECT_ACCESS_DENIED`, task
creation in that project fails with `PROJECT_ACCESS_DENIED`, and task
read/update/delete on a task of that project fail with `TASK_ACCESS_DENIED`,
all leaving the database unchanged. -/
theorem c1_access_decision (db : DB) (pid uid now : Nat) (p : ProjectDoc)
    (hp : db.findProject pid = some p) :
    (userHasAccess db pid uid = true ↔ (p.owner = uid ∨ uid ∈ p.members))
    ∧ (userHasAccess db pid uid = false →
        (getProjectById db pid (some uid)).code = some "PROJECT_ACCESS_DENIED"
        ∧ (∀ d : CreateTaskInput, d.projectId = pid →
            (createTask db d uid now).1.code = some "PROJECT_ACCESS_DENIED"
            ∧ (createTask db d uid now).2 = db)
        ∧ (∀ t : TaskDoc, db.findTask t.id = some t → t.projectId = pid →
            (getTaskById db t.id uid).code = some "TASK_ACCESS_DENIED"
            ∧ (∀ u : UpdateTaskInput,
                (updateTask db t.id u uid now).1.code = some "TASK_ACCESS_DENIED"
                ∧ (updateTask db t.id u uid now).2 = db)
            ∧ (deleteTask db t.id uid).1.code = some "TASK_ACCESS_DENIED"
            ∧ (deleteTask db t.id uid).2 = db)) := by
  have hacc := userHasAccess_eq db pid uid p hp
  constructor
  · rw [hacc]
    simp [ProjectDoc.isOwner, ProjectDoc.isMember, List.contains]
  · intro hfalse
    rw [hacc] at hfalse
    have hown : p.isOwner uid = false := by
      cases h : p.isOwner uid
      · rfl
      · rw [h] at hfalse; simp at hfalse
    have hmem : p.isMember uid = false := by
      cases h : p.isMember uid
      · rfl
      · rw [h] at hfalse; simp at hfalse
    refine ⟨?_, ?_, ?_⟩
    · simp [getProjectById, hp, hown, hmem, SvcResult.code]
    · intro d hd
      simp [createTask, hd, hacc, hown, hmem, SvcResult.code]
    · intro t ht htp
      have haccT : userHasAccess db t.projectId uid = false := by
        rw [htp, hacc, hown, hmem]; rfl
      refine ⟨?_, ?_, ?_, ?_⟩
      · simp [getTaskById, ht, haccT, SvcResult.code]
      · intro u
        simp [updateTask, ht, haccT, SvcResult.code]
      · simp [deleteTask, ht, haccT, SvcResult.code]
      · simp [deleteTask, ht, haccT, SvcResult.code]

/-- C1 witness: in `exDb1`, outsider 3 is denied a task read with
`TASK_ACCESS_DENIED`, by the main theorem applied at this database. -/
theorem c1_witness :
    exDb1.findProject 5 = some (mkProject 5 1 [2])
    ∧ (getTaskById exDb1 9 3).code = some "TASK_ACCESS_DENIED" := by
  refine ⟨by decide, ?_⟩
  exact (((c1_access_decision exDb1 5 3 0 (mkProject 5 1 [2]) (by decide)).2
    (by decide)).2.2 (mkTask 9 5 2 .todo none) (by decide) (by decide)).1

/-- Looking a project up after an in-place single-document update returns
the updated document, for any update that keeps the id. -/
theorem findProject_mapProject (db : DB) (pid : Nat) (f : ProjectDoc → ProjectDoc)
    (hf : ∀ q, (f q).id = q.id) (p : ProjectDoc) (hp : db.findProject pid = some p) :
    (db.mapProject pid f).findProject pid = some (f p) := by
  have hpred : ∀ x : ProjectDoc,
      ((if x.id == pid then f x else x).id == pid) = (x.id == pid) := by
    intro x
    cases h : (x.id == pid) <;> simp [h, hf]
  unfold DB.findProject at hp
  have hid : (p.id == pid) = true := by
    have h := List.find?_some hp
    simpa using h
  unfold DB.mapProject DB.findProject
  rw [find?_map_congr _ _ _ hpred, hp]
  simp only [Option.map_some']
  rw [hid]
  simp

/-- C4 counterexample: in `exDb1` (project 5, owner 1, members [2]), member 2
asking to remove owner 1 fails with `INSUFFICIENT_PERMISSIONS`, not with
`CANNOT_REMOVE_OWNER` as the claim states; the project is unchanged. -/
theorem c4_counterexample :
    (removeMember exDb1 5 1 2).1.code = some "INSUFFICIENT_PERMISSIONS"
    ∧ (removeMember exDb1 5 1 2).1.code ≠ some "CANNOT_REMOVE_OWNER"
    ∧ (removeMember exDb1 5 1 2).2 = exDb1 := by
  refine ⟨by decide, by decide, by decide⟩

/-- C4 (amended). A remove-member request whose target is the project owner
always fails and leaves the database unchanged, but the error code is
`CANNOT_REMOVE_OWNER` only when the caller is the owner (the only caller the
preceding permission check lets through, because caller = target = owner
collapses to the owner); every other caller fails earlier with
`INSUFFICIENT_PERMISSIONS`. -/
theorem c4_remove_owner_always_fails (db : DB) (pid caller : Nat) (p : ProjectDoc)
    (hp : db.findProject pid = some p) :
    (removeMember db pid p.owner caller).1.isOk = false
    ∧ (removeMember db pid p.owner caller).2 = db
    ∧ (removeMember db pid p.owner caller).1.code
        = some (if caller = p.owner then "CANNOT_REMOVE_OWNER"
                else "INSUFFICIENT_PERMISSIONS") := by
  by_cases hc : caller = p.owner
  · have hOwn : p.isOwner caller = true := by simp [ProjectDoc.isOwner, hc]
    simp [removeMember, hp, hOwn, ProjectDoc.isOwner, hc, SvcResult.isOk, SvcResult.code]
  · have hOwn : p.isOwner caller = false := by
      simp [ProjectDoc.isOwner]
      exact fun h => hc h.symm
    have hne : caller ≠ p.owner := hc
    simp [removeMember, hp, hOwn, hne, hc, SvcResult.isOk, SvcResult.code]

/-- C4 witness: the owner itself asking to remove the owner gets
`CANNOT_REMOVE_OWNER`, by the amended theorem at a concrete database. -/
theorem c4_witness :
    exDb1.findProject 5 = some (mkProject 5 1 [2])
    ∧ (removeMember exDb1 5 1 1).1.code = some "CANNOT_REMOVE_OWNER" := by
  refine ⟨by decide, ?_⟩
  have h := (c4_remove_owner_always_fails exDb1 5 1 (mkProject 5 1 [2]) (by decide)).2.2
  simpa [mkProject] using h

/-- C6. Project mutation is owner-only at the service layer: update, delete
and add-member succeed only when the actor is the project owner, and
remove-member only when the actor is the owner or the member being removed;
any other actor is denied with `INSUFFICIENT_PERMISSIONS` and the database
is unchanged. The service methods receive only the actor's user id — no
role — so an admin actor is subject to exactly the same owner test, and the
route's membership middleware never shields the rule from admins: an admin
always passes `requireProjectMember` and is then denied by the service. -/
theorem c6_owner_only_mutations (db : DB) (pid actor : Nat) (p : ProjectDoc)
    (hp : db.findProject pid = some p) :
    requireProjectMember db pid actor .admin = .next
    ∧ (∀ d : UpdateProjectData,
        ((updateProject db pid d actor).1.isOk = true ↔ actor = p.owner)
        ∧ (actor ≠ p.owner →
            (updateProject db pid d actor).1.code = some "INSUFFICIENT_PERMISSIONS"
            ∧ (updateProject db pid d actor).2 = db))
    ∧ (((deleteProject db pid actor).1.isOk = true ↔ actor = p.owner)
        ∧ (actor ≠ p.owner →
            (deleteProject db pid actor).1.code = some "INSUFFICIENT_PERMISSIONS"
            ∧ (deleteProject db pid actor).2 = db))
    ∧ (∀ target,
        ((addMember db pid target actor).1.isOk = true → actor = p.owner)
        ∧ (actor ≠ p.owner →
            (addMember db pid target actor).1.code = some "INSUFFICIENT_PERMISSIONS"
            ∧ (addMember db pid target actor).2 = db))
    ∧ (∀ target,
        ((removeMember db pid target actor).1.isOk = true →
            (actor = p.owner ∨ actor = target))
        ∧ (¬(actor = p.owner ∨ actor = target) →
            (removeMember db pid target actor).1.code = some "INSUFFICIENT_PERMISSIONS"
            ∧ (removeMember db pid target actor).2 = db)) := by
  constructor
  · rfl
  by_cases ha : actor = p.owner
  · have hOwn : p.isOwner actor = true := by simp [ProjectDoc.isOwner, ha]
    refine ⟨?_, ?_, ?_, ?_⟩
    · intro d
      refine ⟨by simp [updateProject, hp, SvcResult.isOk, ha, ProjectDoc.isOwner], ?_⟩
      intro hne; exact absurd ha hne
    · refine ⟨by simp [deleteProject, hp, SvcResult.isOk, ha, ProjectDoc.isOwner], ?_⟩
      intro hne; exact absurd ha hne
    · intro target
      refine ⟨fun _ => ha, ?_⟩
      intro hne; exact absurd ha hne
    · intro target
      refine ⟨fun _ => Or.inl ha, ?_⟩
      intro hne; exact absurd (Or.inl ha) hne
  · have hOwn : p.isOwner actor = false := by
      simp [ProjectDoc.isOwner]
      exact fun h => ha h.symm
    refine ⟨?_, ?_, ?_, ?_⟩
    · intro d
      refine ⟨by simp [updateProject, hp, hOwn, SvcResult.isOk, ha], ?_⟩
      intro _
      exact ⟨by simp [updateProject, hp, hOwn, SvcResult.code],
             by simp [updateProject, hp, hOwn]⟩
    · refine ⟨by simp [deleteProject, hp, hOwn, SvcResult.isOk, ha], ?_⟩
      intro _
      exact ⟨by simp [deleteProject, hp, hOwn, SvcResult.code],
             by simp [deleteProject, hp, hOwn]⟩
    · intro target
      refine ⟨?_, ?_⟩
      · intro hok
        exfalso
        simp [addMember, hp, hOwn, SvcResult.isOk] at hok
      · intro _
        exact ⟨by simp [addMember, hp, hOwn, SvcResult.code],
               by simp [addMember, hp, hOwn]⟩
    · intro target
      by_cases hself : actor = target
      · refine ⟨fun _ => Or.inr hself, ?_⟩
        intro hne; exact absurd (Or.inr hself) hne
      · have hcond : (!p.isOwner actor && actor != target) = true := by
          simp [hOwn, hself]
        refine ⟨?_, ?_⟩
        · intro hok
          exfalso
          simp [removeMember, hp, hcond, SvcResult.isOk] at hok
        · intro _
          exact ⟨by simp [removeMember, hp, hcond, SvcResult.code],
                 by simp [removeMember, hp, hcond]⟩

/-- C6 witness: member 2 (not the owner) attempting a project update in
`exDb1` is denied with `INSUFFICIENT_PERMISSIONS`, by the main theorem. -/
theorem c6_witness :
    exDb1.findProject 5 = some (mkProject 5 1 [2])
    ∧ (2 : Nat) ≠ (mkProject 5 1 [2]).owner
    ∧ (updateProject exDb1 5 { name := none, description := none, status := none } 2).1.code
        = some "INSUFFICIENT_PERMISSIONS" := by
  refine ⟨by decide, by decide, ?_⟩
  exact (((c6_owner_only_mutations exDb1 5 2 (mkProject 5 1 [2]) (by decide)).2.1
    { name := none, description := none, status := none }).2 (by decide)).1

/-- C10. With the project present and the caller authorized (the owner, or
the target removing itself), a remove-member request whose target is neither
the owner nor a member fails with `NOT_A_MEMBER` and changes nothing; and
whenever remove-member succeeds, the target was an actual member and the new
member list is exactly the old one with the target pulled out. -/
theorem c10_remove_nonmember (db : DB) (pid target caller : Nat) (p : ProjectDoc)
    (hp : db.findProject pid = some p)
    (hauth : caller = p.owner ∨ caller = target) :
    (target ≠ p.owner → target ∉ p.members →
        (removeMember db pid target caller).1.code = some "NOT_A_MEMBER"
        ∧ (removeMember db pid target caller).2 = db)
    ∧ ((removeMember db pid target caller).1.isOk = true →
        target ∈ p.members
        ∧ (removeMember db pid target caller).2.findProject pid
            = some { p with members := p.members.filter (fun m => m != target) }) := by
  have hcond1 : (!p.isOwner caller && caller != target) = false := by
    rcases hauth with h | h
    · simp [ProjectDoc.isOwner, h]
    · simp [h]
  constructor
  · intro hto htm
    have hOwnT : p.isOwner target = false := by
      simp [ProjectDoc.isOwner]
      exact fun h => hto h.symm
    have hMemT : p.isMember target = false := by
      simp [ProjectDoc.isMember, List.contains]
      exact htm
    constructor
    · simp [removeMember, hp, hcond1, hOwnT, hMemT, SvcResult.code]
    · simp [removeMember, hp, hcond1, hOwnT, hMemT]
  · intro hok
    by_cases hOwnT : p.isOwner target = true
    · exfalso
      simp [removeMember, hp, hcond1, hOwnT, SvcResult.isOk] at hok
    · have hOwnT2 : p.isOwner target = false := by
        cases h : p.isOwner target
        · rfl
        · exact absurd h hOwnT
      by_cases hMemT : p.isMember target = true
      · have hmem : target ∈ p.members := (isMember_iff p target).mp hMemT
        refine ⟨hmem, ?_⟩
        have hres : (removeMember db pid target caller).2 = repoRemoveMember db pid target := by
          simp [removeMember, hp, hcond1, hOwnT2, hMemT]
        rw [hres]
        exact findProject_mapProject db pid
          (fun q => { q with members := q.members.filter (fun m => m != target) })
          (fun q => rfl) p hp
      · exfalso
        have hMemT2 : p.isMember target = false := by
          cases h : p.isMember target
          · rfl
          · exact absurd h hMemT
        simp [removeMember, hp, hcond1, hOwnT2, hMemT2, SvcResult.isOk] at hok

/-- C10 witness: owner 1 asking to remove non-member 3 in `exDb1` gets
`NOT_A_MEMBER` with the database unchanged, by the main theorem. -/
theorem c10_witness :
    exDb1.findProject 5 = some (mkProject 5 1 [2])
    ∧ (removeMember exDb1 5 3 1).1.code = some "NOT_A_MEMBER"
    ∧ (removeMember exDb1 5 3 1).2 = exDb1 := by
  refine ⟨by decide, ?_, ?_⟩
  · exact ((c10_remove_nonmember exDb1 5 3 1 (mkProject 5 1 [2]) (by decide)
      (Or.inl (by decide))).1 (by decide) (by decide)).1
  · exact ((c10_remove_nonmember exDb1 5 3 1 (mkProject 5 1 [2]) (by decide)
      (Or.inl (by decide))).1 (by decide) (by decide)).2

/-- C3 counterexample: creating a project while proposing the creator itself
as a member succeeds and yields a project whose owner is an element of its
member list — `createProject` never filters the creator out, so the
invariant is not established at creation. -/
theorem c3_counterexample :
    (createProject exDb3 exSelfMemberCreate 1).1.isOk = true
    ∧ ((createProject exDb3 exSelfMemberCreate 1).2.findProject 0).map
        (fun q => decide (q.owner ∈ q.members)) = some true := by
  refine ⟨by decide, by decide⟩

/-- C3 (amended). The owner-not-member invariant is preserved by add-member
(a successful add targets a non-owner, because owners are rejected with
`ALREADY_MEMBER`) and by remove-member (the member list only shrinks), but
creation does not establish it: the created project carries exactly the
proposed member list, so proposing the creator yields a project whose owner
is in its member set. -/
theorem c3_owner_member_invariant (db : DB) :
    (∀ pid target actor p p2, db.findProject pid = some p →
        (addMember db pid target actor).1.isOk = true →
        (addMember db pid target actor).2.findProject pid = some p2 →
        p.owner ∉ p.members → p2.owner ∉ p2.members)
    ∧ (∀ pid target actor p p2, db.findProject pid = some p →
        (removeMember db pid target actor).2.findProject pid = some p2 →
        p.owner ∉ p.members → p2.owner ∉ p2.members)
    ∧ (∀ (d : CreateProjectData) (ownerId : Nat),
        (createProject db d ownerId).1.isOk = true →
        (createProject db d ownerId).2.projects
          = db.projects ++ [createdProject db d ownerId]
        ∧ (ownerId ∈ d.members →
            ∃ q ∈ (createProject db d ownerId).2.projects, q.owner ∈ q.members)) := by
  refine ⟨?_, ?_, ?_⟩
  · intro pid target actor p p2 hp hok hp2 hinv
    by_cases hOwnA : p.isOwner actor = true
    · cases hfu : db.findUser target with
      | none => simp [addMember, hp, hOwnA, hfu, SvcResult.isOk] at hok
      | some mu =>
        by_cases hact : mu.isActive = true
        · by_cases hdup : (p.isMember target || p.isOwner target) = true
          · simp [addMember, hp, hOwnA, hfu, hact, hdup, SvcResult.isOk] at hok
          · have hmf : p.isMember target = false := by
              cases h : p.isMember target
              · rfl
              · exact absurd (by rw [h]; rfl) hdup
            have hof : p.isOwner target = false := by
              cases h : p.isOwner target
              · rfl
              · exact absurd (by rw [h, Bool.or_true]) hdup
            have hdupf : (p.isMember target || p.isOwner target) = false := by
              rw [hmf, hof]; rfl
            have hres : (addMember db pid target actor).2 = repoAddMember db pid target := by
              simp [addMember, hp, hOwnA, hfu, hact, hdupf]
            rw [hres] at hp2
            have hfid : ∀ q : ProjectDoc,
                ((if q.members.contains target then q
                  else { q with members := q.members ++ [target] }) : ProjectDoc).id = q.id := by
              intro q
              cases h : q.members.contains target <;> simp
            unfold repoAddMember at hp2
            rw [findProject_mapProject db pid
              (fun q => if q.members.contains target then q
                else { q with members := q.members ++ [target] }) hfid p hp] at hp2
            have hcont : p.members.contains target = false := hmf
            rw [hcont] at hp2
            simp only [Bool.false_eq_true, if_false, Option.some.injEq] at hp2
            subst hp2
            simp only [List.mem_append, List.mem_singleton]
            rintro (h | h)
            · exact hinv h
            · have hne : p.owner ≠ target := by
                have h2 := hof
                simp [ProjectDoc.isOwner] at h2
                exact h2
              exact hne h
        · have hactf : mu.isActive = false := by
            cases h : mu.isActive
            · rfl
            · exact absurd h hact
          simp [addMember, hp, hOwnA, hfu, hactf, SvcResult.isOk] at hok
    · have hOwnF : p.isOwner actor = false := by
        cases h : p.isOwner actor
        · rfl
        · exact absurd h hOwnA
      simp [addMember, hp, hOwnF, SvcResult.isOk] at hok
  · intro pid target actor p p2 hp hp2 hinv
    by_cases hc1 : (!p.isOwner actor && actor != target) = true
    · simp [removeMember, hp, hc1] at hp2
      exact hp2 ▸ hinv
    · have hc1f : (!p.isOwner actor && actor != target) = false := by
        cases h : (!p.isOwner actor && actor != target)
        · rfl
        · exact absurd h hc1
      by_cases hc2 : p.isOwner target = true
      · simp [removeMember, hp, hc1f, hc2] at hp2
        exact hp2 ▸ hinv
      · have hc2f : p.isOwner target = false := by
          cases h : p.isOwner target
          · rfl
          · exact absurd h hc2
        by_cases hc3 : p.isMember target = true
        · have hres : (removeMember db pid target actor).2
              = repoRemoveMember db pid target := by
            simp [removeMember, hp, hc1f, hc2f, hc3]
          rw [hres] at hp2
          unfold repoRemoveMember at hp2
          rw [findProject_mapProject db pid
            (fun q => { q with members := q.members.filter (fun m => m != target) })
            (fun q => rfl) p hp] at hp2
          simp only [Option.some.injEq] at hp2
          subst hp2
          intro habs
          exact hinv (List.mem_of_mem_filter habs)
        · have hc3f : p.isMember target = false := by
            cases h : p.isMember target
            · rfl
            · exact absurd h hc3
          simp [removeMember, hp, hc1f, hc2f, hc3f] at hp2
          exact hp2 ▸ hinv
  · intro d ownerId hok
    by_cases hv : (0 < d.members.length ∧
        (db.users.filter (fun u => d.members.contains u.id && u.isActive)).length
          ≠ d.members.length)
    · exfalso
      unfold createProject at hok
      rw [if_pos hv] at hok
      simp [SvcResult.isOk] at hok
    · have hproj : (createProject db d ownerId).2.projects
          = db.projects ++ [createdProject db d ownerId] := by
        unfold createProject
        rw [if_neg hv]
      refine ⟨hproj, ?_⟩
      intro hmem
      refine ⟨createdProject db d ownerId, ?_, hmem⟩
      rw [hproj]
      simp

/-- C3 witness: in `exDb1` the owner removing member 2 keeps the invariant
(applying the amended theorem's remove-member part at a concrete state). -/
theorem c3_witness :
    exDb1.findProject 5 = some (mkProject 5 1 [2])
    ∧ (removeMember exDb1 5 2 1).2.findProject 5 = some (mkProject 5 1 [])
    ∧ (mkProject 5 1 []).owner ∉ (mkProject 5 1 []).members := by
  refine ⟨by decide, by decide, ?_⟩
  exact (c3_owner_member_invariant exDb1).2.1 5 2 1 (mkProject 5 1 [2])
    (mkProject 5 1 []) (by decide) (by decide) (by decide)

/-- Looking a task up after the single-task repository update returns the
task with the hook-processed update document applied. -/
theorem findTask_taskRepoUpdate (db : DB) (taskId : Nat) (u : TaskUpdateDoc) (now : Nat)
    (t : TaskDoc) (ht : db.findTask taskId = some t) :
    (taskRepoUpdate db taskId u now).findTask taskId
      = some (applyTaskUpdateDoc t (taskPreFindOneAndUpdate u now)) := by
  have hpred : ∀ x : TaskDoc,
      (((if x.id == taskId then applyTaskUpdateDoc x (taskPreFindOneAndUpdate u now)
         else x) : TaskDoc).id == taskId) = (x.id == taskId) := by
    intro x
    cases h : (x.id == taskId) <;> simp [h, applyTaskUpdateDoc]
  unfold DB.findTask at ht
  have hid : (t.id == taskId) = true := by
    have h := List.find?_some ht
    simpa using h
  unfold taskRepoUpdate DB.findTask
  rw [find?_map_congr _ _ _ hpred, ht]
  simp only [Option.map_some']
  rw [hid]
  simp

/-- A status-carrying update document routed through the findOneAndUpdate
hook always lands on a task satisfying the completedAt invariant. -/
theorem hook_completedAt_invariant (t : TaskDoc) (u : UpdateTaskInput) (s : TaskStatus)
    (now : Nat) (hs : u.status = some s) :
    ((applyTaskUpdateDoc t (taskPreFindOneAndUpdate u.toUpdateDoc now)).status = .completed
      ↔ (applyTaskUpdateDoc t (taskPreFindOneAndUpdate u.toUpdateDoc now)).completedAt ≠ none) := by
  cases s <;>
    simp [taskPreFindOneAndUpdate, applyTaskUpdateDoc, UpdateTaskInput.toUpdateDoc, hs]

/-- C2 counterexample: a bulk update marking todo task 10 as completed
succeeds, yet afterwards the task has `status = completed` with
`completedAt` unset — `updateMany` bypasses both schema hooks, so the
claimed invariant fails after a bulk status change. -/
theorem c2_counterexample :
    (bulkUpdateTasks exDb2 exBulkComplete 1).1.isOk = true
    ∧ ((bulkUpdateTasks exDb2 exBulkComplete 1).2.findTask 10).map TaskDoc.status
        = some TaskStatus.completed
    ∧ ((bulkUpdateTasks exDb2 exBulkComplete 1).2.findTask 10).map TaskDoc.completedAt
        = some none := by
  refine ⟨by decide, by decide, by decide⟩

/-- C2 (amended). After a status-changing single update through the service
(updateTask, which routes through the findOneAndUpdate hook) the task
satisfies `status = completed ↔ completedAt set`, and the same holds after
any instance save with a modified status path; the bulk path, however,
applies its update object raw, leaving every task's `completedAt` exactly as
it was — it never recomputes the derived field. -/
theorem c2_completedAt_single_update_only (db : DB) (taskId uid now : Nat)
    (u : UpdateTaskInput) (s : TaskStatus) (hs : u.status = some s) :
    (∀ t2 : TaskDoc, (updateTask db taskId u uid now).1.isOk = true →
        (updateTask db taskId u uid now).2.findTask taskId = some t2 →
        (t2.status = .completed ↔ t2.completedAt ≠ none))
    ∧ (∀ t : TaskDoc, ((taskPreSave t true now).status = .completed
        ↔ (taskPreSave t true now).completedAt ≠ none))
    ∧ (∀ (t : TaskDoc) (bu : BulkTaskUpdates),
        (applyBulkUpdates t bu).completedAt = t.completedAt) := by
  refine ⟨?_, ?_, ?_⟩
  · intro t2 hok ht2
    cases hft : db.findTask taskId with
    | none => simp [updateTask, hft, SvcResult.isOk] at hok
    | some t =>
      by_cases hacc : userHasAccess db t.projectId uid = true
      · cases hat : u.assignedTo with
        | none =>
          have hres : (updateTask db taskId u uid now).2
              = taskRepoUpdate db taskId u.toUpdateDoc now := by
            simp [updateTask, hft, hacc, hat]
          rw [hres, findTask_taskRepoUpdate db taskId _ now t hft] at ht2
          simp only [Option.some.injEq] at ht2
          subst ht2
          exact hook_completedAt_invariant t u s now hs
        | some a =>
          cases hfa : db.findUser a with
          | none => simp [updateTask, hft, hacc, hat, hfa, SvcResult.isOk] at hok
          | some au =>
            by_cases hactv : au.isActive = true
            · by_cases hacc2 : userHasAccess db t.projectId a = true
              · have hres : (updateTask db taskId u uid now).2
                    = taskRepoUpdate db taskId u.toUpdateDoc now := by
                  simp [updateTask, hft, hacc, hat, hfa, hactv, hacc2]
                rw [hres, findTask_taskRepoUpdate db taskId _ now t hft] at ht2
                simp only [Option.some.injEq] at ht2
                subst ht2
                exact hook_completedAt_invariant t u s now hs
              · have hacc2f : userHasAccess db t.projectId a = false := by
                  cases h : userHasAccess db t.projectId a
                  · rfl
                  · exact absurd h hacc2
                simp [updateTask, hft, hacc, hat, hfa, hactv, hacc2f, SvcResult.isOk] at hok
            · have hactvf : au.isActive = false := by
                cases h : au.isActive
                · rfl
                · exact absurd h hactv
              simp [updateTask, hft, hacc, hat, hfa, hactvf, SvcResult.isOk] at hok
      · have haccf : userHasAccess db t.projectId uid = false := by
          cases h : userHasAccess db t.projectId uid
          · rfl
          · exact absurd h hacc
        simp [updateTask, hft, haccf, SvcResult.isOk] at hok
  · intro t
    cases ht : t.status <;> cases hc : t.completedAt <;>
      simp [taskPreSave, ht, hc]
  · intro t bu
    rfl

/-- C2 witness: completing task 10 of `exDb2` through the single-update
service path yields a task with both `status = completed` and a stamped
`completedAt`, by the amended theorem at this concrete state. -/
theorem c2_witness :
    exUpdStatusDone.status = some TaskStatus.completed
    ∧ ((mkTask 10 5 1 .completed (some 77)).status = .completed
        ↔ (mkTask 10 5 1 .completed (some 77)).completedAt ≠ none) := by
  refine ⟨by decide, ?_⟩
  exact (c2_completedAt_single_update_only exDb2 10 1 77 exUpdStatusDone
    .completed (by decide)).1 (mkTask 10 5 1 .completed (some 77)) (by decide) (by decide)

/-- C7 counterexample: in `exDb4`, user 3 (no project access) creating a
task assigned to itself — an existing, active assignee without project
access — fails with `PROJECT_ACCESS_DENIED`, not `ASSIGNED_USER_NO_ACCESS`:
the acting user's own access check runs first, so the claimed error is not
independent of it. -/
theorem c7_counterexample :
    userHasAccess exDb4 5 3 = false
    ∧ (createTask exDb4 exCreateTaskFor3 3 50).1.code = some "PROJECT_ACCESS_DENIED"
    ∧ (createTask exDb4 exCreateTaskFor3 3 50).1.code ≠ some "ASSIGNED_USER_NO_ACCESS" := by
  refine ⟨by decide, by decide, by decide⟩

/-- C7 (amended). When the acting user passes its own access check and the
proposed assignee exists and is active but lacks access to the project, task
creation and task reassignment fail with `ASSIGNED_USER_NO_ACCESS` and leave
the database unchanged; an actor without access fails earlier with
`PROJECT_ACCESS_DENIED` (creation) or `TASK_ACCESS_DENIED` (update). -/
theorem c7_assignee_access_required (db : DB) (uid now : Nat) :
    (∀ (d : CreateTaskInput) (au : UserDoc),
        userHasAccess db d.projectId uid = true →
        db.findUser d.assignedTo = some au →
        au.isActive = true →
        userHasAccess db d.projectId d.assignedTo = false →
        (createTask db d uid now).1.code = some "ASSIGNED_USER_NO_ACCESS"
        ∧ (createTask db d uid now).2 = db)
    ∧ (∀ (taskId : Nat) (u : UpdateTaskInput) (t : TaskDoc) (a : Nat) (au : UserDoc),
        db.findTask taskId = some t →
        u.assignedTo = some a →
        userHasAccess db t.projectId uid = true →
        db.findUser a = some au →
        au.isActive = true →
        userHasAccess db t.projectId a = false →
        (updateTask db taskId u uid now).1.code = some "ASSIGNED_USER_NO_ACCESS"
        ∧ (updateTask db taskId u uid now).2 = db) := by
  constructor
  · intro d au hacc hau hact hno
    constructor
    · simp [createTask, hacc, hau, hact, hno, SvcResult.code]
    · simp [createTask, hacc, hau, hact, hno]
  · intro taskId u t a au hft hat hacc hau hact hno
    constructor
    · simp [updateTask, hft, hat, hacc, hau, hact, hno, SvcResult.code]
    · simp [updateTask, hft, hat, hacc, hau, hact, hno]

/-- C7 witness: owner 1 (with access) assigning a task to user 3 (active,
no access) in `exDb4` gets `ASSIGNED_USER_NO_ACCESS` and no state change, by
the amended theorem. -/
theorem c7_witness :
    userHasAccess exDb4 5 1 = true
    ∧ (createTask exDb4 exCreateTaskFor3 1 50).1.code = some "ASSIGNED_USER_NO_ACCESS"
    ∧ (createTask exDb4 exCreateTaskFor3 1 50).2 = exDb4 := by
  refine ⟨by decide, ?_, ?_⟩
  · exact ((c7_assignee_access_required exDb4 1 50).1 exCreateTaskFor3
      (mkUser 3 "s@x.com") (by decide) (by decide) (by decide) (by decide)).1
  · exact ((c7_assignee_access_required exDb4 1 50).1 exCreateTaskFor3
      (mkUser 3 "s@x.com") (by decide) (by decide) (by decide) (by decide)).2

/-- C8. Registration with an email some stored user already carries fails
with `USER_EXISTS` and changes nothing; with a fresh email it appends
exactly one user whose stored password field is the hash of the submitted
password (never the raw password), and the response carries the new user
plus an access token and a refresh token over the new user's claims. -/
theorem c8_register_contract (db : DB) (d : RegistrationInput) :
    ((∃ u ∈ db.users, u.email = d.email) →
        (register db d).1.code = some "USER_EXISTS" ∧ (register db d).2 = db)
    ∧ ((∀ u ∈ db.users, u.email ≠ d.email) →
        (register db d).2.users = db.users ++ [registeredUser db d]
        ∧ (registeredUser db d).password = bcryptHash d.password
        ∧ (register db d).1
            = .ok { user := (registeredUser db d).toSafeObject,
                    accessToken := generateToken (registeredPayload db d),
                    refreshToken := generateRefreshToken (registeredPayload db d) }) := by
  constructor
  · rintro ⟨u, hu, he⟩
    cases hfind : db.findUserByEmail d.email with
    | none =>
      exfalso
      unfold DB.findUserByEmail at hfind
      have hall := List.find?_eq_none.mp hfind u hu
      simp [he] at hall
    | some w =>
      constructor
      · simp [register, hfind, SvcResult.code]
      · simp [register, hfind]
  · intro hfresh
    cases hfind : db.findUserByEmail d.email with
    | some w =>
      exfalso
      unfold DB.findUserByEmail at hfind
      have hw := List.find?_some hfind
      have hwm := List.mem_of_find?_eq_some hfind
      simp at hw
      exact hfresh w hwm hw
    | none =>
      refine ⟨?_, rfl, ?_⟩
      · simp [register, hfind]
      · simp [register, hfind]

/-- C8 witness: in `exDb3` (which holds `o@x.com`), re-registering
`o@x.com` fails with `USER_EXISTS` and a fresh `n@x.com` succeeds with the
hash-stored password and both tokens, by the main theorem. -/
theorem c8_witness :
    ((register exDb3 exRegDup).1.code = some "USER_EXISTS"
      ∧ (register exDb3 exRegDup).2 = exDb3)
    ∧ (register exDb3 exRegFresh).1
        = .ok { user := (registeredUser exDb3 exRegFresh).toSafeObject,
                accessToken := generateToken (registeredPayload exDb3 exRegFresh),
                refreshToken := generateRefreshToken (registeredPayload exDb3 exRegFresh) } := by
  constructor
  · exact (c8_register_contract exDb3 exRegDup).1
      ⟨mkUser 1 "o@x.com", by decide, by decide⟩
  · exact ((c8_register_contract exDb3 exRegFresh).2 (by decide)).2.2

/-- Looking a user up after the lastLogin stamp returns the user with only
lastLogin changed. -/
theorem findUser_updateLastLogin (db : DB) (uid now : Nat) (u : UserDoc)
    (hu : db.findUser uid = some u) :
    (userRepoUpdateLastLogin db uid now).findUser uid
      = some { u with lastLogin := some now } := by
  have hpred : ∀ x : UserDoc,
      (((if x.id == uid then { x with lastLogin := some now } else x) : UserDoc).id == uid)
        = (x.id == uid) := by
    intro x
    cases h : (x.id == uid) <;> simp [h]
  unfold DB.findUser at hu
  have hid : (u.id == uid) = true := by
    have h := List.find?_some hu
    simpa using h
  unfold userRepoUpdateLastLogin DB.findUser
  rw [find?_map_congr _ _ _ hpred, hu]
  simp only [Option.map_some']
  rw [hid]
  simp

/-- C9 counterexample: in `exDb2`, an authenticated request that only reads
project 5 (a pure read per the claim) nevertheless changes user 1's stored
record, because the authenticate middleware stamps lastLogin before the
handler runs. -/
theorem c9_counterexample :
    (authenticate exDb2 1 7).1.isOk = true
    ∧ (getProjectById exDb2 5 (some 1)).isOk = true
    ∧ (authenticate exDb2 1 7).2.findUser 1 ≠ exDb2.findUser 1 := by
  refine ⟨by decide, by decide, by decide⟩

/-- C9 (amended). The authenticate middleware — which runs on every
authenticated route, read-only ones included — succeeds for an active stored
user and rewrites exactly that user's lastLogin to the current time,
touching no other user and no project or task; so the User record is also
mutated by every authenticated request, not only by
registration/profile-update/password-change/login/deactivation. -/
theorem c9_authenticate_stamps_lastLogin (db : DB) (uid now : Nat) (u : UserDoc)
    (hu : db.findUser uid = some u) (hact : u.isActive = true) :
    (authenticate db uid now).1.isOk = true
    ∧ (authenticate db uid now).2.findUser uid = some { u with lastLogin := some now }
    ∧ (∀ v ∈ db.users, v.id ≠ uid → v ∈ (authenticate db uid now).2.users)
    ∧ (authenticate db uid now).2.projects = db.projects
    ∧ (authenticate db uid now).2.tasks = db.tasks := by
  have hres : authenticate db uid now = (.ok (), userRepoUpdateLastLogin db uid now) := by
    simp [authenticate, hu, hact]
  rw [hres]
  refine ⟨rfl, findUser_updateLastLogin db uid now u hu, ?_, rfl, rfl⟩
  intro v hv hne
  have hbeq : (v.id == uid) = false := by
    simp [hne]
  unfold userRepoUpdateLastLogin
  simp only []
  refine List.mem_map.mpr ⟨v, hv, ?_⟩
  rw [hbeq]
  simp

/-- C9 witness: stamping user 1 of `exDb2` at time 7 leaves a record that
differs from the stored one only in lastLogin, by the amended theorem. -/
theorem c9_witness :
    exDb2.findUser 1 = some (mkUser 1 "o@x.com")
    ∧ (authenticate exDb2 1 7).2.findUser 1
        = some { mkUser 1 "o@x.com" with lastLogin := some 7 } := by
  refine ⟨by decide, ?_⟩
  exact (c9_authenticate_stamps_lastLogin exDb2 1 7 (mkUser 1 "o@x.com")
    (by decide) (by decide)).2.1

/-- A duplicate-free list of naturals that sits inside a list missing one of
its elements is strictly shorter than that list. -/
theorem nodup_subset_missing_lt (l m : List Nat) (hn : l.Nodup)
    (hsub : ∀ x ∈ l, x ∈ m) (x : Nat) (hxm : x ∈ m) (hxl : x ∉ l) :
    l.length < m.length := by
  have hsub2 : l ⊆ m.erase x := by
    intro y hy
    have hyx : y ≠ x := fun h => hxl (h ▸ hy)
    exact (List.mem_erase_of_ne hyx).mpr (hsub y hy)
  have h1 : l.length ≤ (m.erase x).length := (List.Nodup.subperm hn hsub2).length_le
  have h2 : (m.erase x).length = m.length - 1 := List.length_erase_of_mem hxm
  have h3 : 0 < m.length := List.length_pos_of_mem hxm
  omega

/-- C5. Bulk task update is all-or-nothing: every failing call leaves the
database untouched; a missing referenced task id forces `TASKS_NOT_FOUND`;
an inaccessible referenced task forces failure (with `TASKS_NOT_FOUND` or
`TASKS_ACCESS_DENIED`); and a successful call entails that every referenced
id resolved to a stored task on whose project the actor has access. -/
theorem c5_bulk_all_or_nothing (db : DB) (d : BulkUpdateInput) (uid : Nat)
    (hwf : db.wf) :
    ((bulkUpdateTasks db d uid).1.isOk = false → (bulkUpdateTasks db d uid).2 = db)
    ∧ ((∃ i ∈ d.taskIds, db.findTask i = none) →
        (bulkUpdateTasks db d uid).1.code = some "TASKS_NOT_FOUND")
    ∧ ((∃ t ∈ db.tasks, t.id ∈ d.taskIds ∧ userHasAccess db t.projectId uid = false) →
        (bulkUpdateTasks db d uid).1.isOk = false
        ∧ ((bulkUpdateTasks db d uid).1.code = some "TASKS_NOT_FOUND"
            ∨ (bulkUpdateTasks db d uid).1.code = some "TASKS_ACCESS_DENIED"))
    ∧ ((bulkUpdateTasks db d uid).1.isOk = true →
        ∀ i ∈ d.taskIds, ∃ t ∈ db.tasks, t.id = i
          ∧ userHasAccess db t.projectId uid = true) := by
  have hnodupF : ((bulkFound db d).map TaskDoc.id).Nodup :=
    hwf.2.2.sublist ((List.filter_sublist db.tasks).map TaskDoc.id)
  have hsubF : ∀ x ∈ (bulkFound db d).map TaskDoc.id, x ∈ d.taskIds := by
    intro x hx
    rcases List.mem_map.mp hx with ⟨t, htF, rfl⟩
    have hc := (List.mem_filter.mp htF).2
    simpa [List.contains] using hc
  have hbr1 : ((bulkFound db d).length != d.taskIds.length) = true →
      bulkUpdateTasks db d uid
        = (.err "TASKS_NOT_FOUND" "One or more tasks not found", db) := by
    intro h
    simp [bulkUpdateTasks, h]
  have hbr2 : ((bulkFound db d).length != d.taskIds.length) = false →
      ((bulkFound db d).any (fun t => !userHasAccess db t.projectId uid)) = true →
      bulkUpdateTasks db d uid
        = (.err "TASKS_ACCESS_DENIED" "Access denied to one or more tasks", db) := by
    intro h1 h2
    simp [bulkUpdateTasks, h1, h2]
  have hbr3 : ((bulkFound db d).length != d.taskIds.length) = false →
      ((bulkFound db d).any (fun t => !userHasAccess db t.projectId uid)) = false →
      bulkUpdateTasks db d uid
        = (.ok (bulkFound db d).length, taskRepoBulkUpdate db d.taskIds d.updates) := by
    intro h1 h2
    simp [bulkUpdateTasks, h1, h2]
  have hmiss : ∀ i ∈ d.taskIds, db.findTask i = none →
      (bulkFound db d).length < d.taskIds.length := by
    intro i hi hnone
    have hnotin : i ∉ (bulkFound db d).map TaskDoc.id := by
      intro hin
      rcases List.mem_map.mp hin with ⟨t, htF, hid⟩
      have htm : t ∈ db.tasks := (List.mem_filter.mp htF).1
      have hnot := List.find?_eq_none.mp hnone t htm
      exact hnot (by simp [hid])
    have hlt := nodup_subset_missing_lt ((bulkFound db d).map TaskDoc.id) d.taskIds
      hnodupF hsubF i hi hnotin
    simpa using hlt
  refine ⟨?_, ?_, ?_, ?_⟩
  · intro hnok
    cases hc1 : ((bulkFound db d).length != d.taskIds.length) with
    | true =>
      rw [hbr1 hc1]
    | false =>
      cases hc2 : ((bulkFound db d).any (fun t => !userHasAccess db t.projectId uid)) with
      | true =>
        rw [hbr2 hc1 hc2]
      | false =>
        rw [hbr3 hc1 hc2] at hnok
        simp [SvcResult.isOk] at hnok
  · rintro ⟨i, hi, hnone⟩
    have hlt := hmiss i hi hnone
    have hc1 : ((bulkFound db d).length != d.taskIds.length) = true := by
      simpa using Nat.ne_of_lt hlt
    rw [hbr1 hc1]
    rfl
  · rintro ⟨t, htm, hti, hacc⟩
    have htF : t ∈ bulkFound db d := by
      refine List.mem_filter.mpr ⟨htm, ?_⟩
      simpa [List.contains] using hti
    cases hc1 : ((bulkFound db d).length != d.taskIds.length) with
    | true =>
      rw [hbr1 hc1]
      exact ⟨rfl, Or.inl rfl⟩
    | false =>
      have hany : ((bulkFound db d).any (fun x => !userHasAccess db x.projectId uid)) = true :=
        List.any_eq_true.mpr ⟨t, htF, by simp [hacc]⟩
      rw [hbr2 hc1 hany]
      exact ⟨rfl, Or.inr rfl⟩
  · intro hok i hi
    cases hc1 : ((bulkFound db d).length != d.taskIds.length) with
    | true =>
      rw [hbr1 hc1] at hok
      simp [SvcResult.isOk] at hok
    | false =>
      cases hc2 : ((bulkFound db d).any (fun t => !userHasAccess db t.projectId uid)) with
      | true =>
        rw [hbr2 hc1 hc2] at hok
        simp [SvcResult.isOk] at hok
      | false =>
        have hlen : (bulkFound db d).length = d.taskIds.length := by
          simpa using hc1
        by_cases hin : i ∈ (bulkFound db d).map TaskDoc.id
        · rcases List.mem_map.mp hin with ⟨t, htF, hid⟩
          have htm : t ∈ db.tasks := (List.mem_filter.mp htF).1
          have haccT : userHasAccess db t.projectId uid = true := by
            cases h : userHasAccess db t.projectId uid with
            | false =>
              exfalso
              have hany : ((bulkFound db d).any
                  (fun x => !userHasAccess db x.projectId uid)) = true :=
                List.any_eq_true.mpr ⟨t, htF, by simp [h]⟩
              rw [hany] at hc2
              simp at hc2
            | true => rfl
          exact ⟨t, htm, hid, haccT⟩
        · exfalso
          have hlt := nodup_subset_missing_lt ((bulkFound db d).map TaskDoc.id) d.taskIds
            hnodupF hsubF i hi hin
          simp only [List.length_map] at hlt
          omega

/-- C5 witness: in `exDb4`, a bulk request naming existing task 9 and
non-existent task 42 fails with `TASKS_NOT_FOUND` and leaves the database
unchanged, by the main theorem. -/
theorem c5_witness :
    (bulkUpdateTasks exDb4 exBulkMissing 1).1.code = some "TASKS_NOT_FOUND"
    ∧ (bulkUpdateTasks exDb4 exBulkMissing 1).2 = exDb4 := by
  constructor
  · exact (c5_bulk_all_or_nothing exDb4 exBulkMissing 1
      (by unfold DB.wf; decide)).2.1 ⟨42, by decide, by decide⟩
  · refine (c5_bulk_all_or_nothing exDb4 exBulkMissing 1 (by unfold DB.wf; decide)).1 ?_
    decide

end TaskMgmt
